import Mathlib

/-!
Shallow embedding of `src/main.rs` (a Perlin-flow particle visualizer).

Modelling conventions:
* `u8` / `u16` / `u32` machine integers are embedded as `ℕ`, with explicit
  `% 2^8` / `% 2^16` / `% 2^32` wraps exactly where the Rust arithmetic can
  wrap (release-mode semantics; debug builds would panic at the same spots,
  and neither behaviour is a saturating operation).
* `i8` is embedded as `ℤ`; the saturating `as i8` float cast is `i8sat`, and
  the sign-extending `as u16` cast of an `i8` is `% 2^16` on the integer.
* `f32` / `f64` arithmetic on rational inputs (casts, `/`, `%`, `abs`,
  comparisons) is embedded as exact `ℚ` arithmetic; the transcendental
  functions `cos`, `sin` and the constant `π` of `to_radians` are embedded
  over `ℝ` (`Real.cos`, `Real.sin`, `Real.pi`), which is why the few
  definitions touching them are `noncomputable`.
* The Perlin noise sampler is an external collaborator: it is a field of
  `Param` of type `ℚ × ℚ → ℝ`, never inspected.
* `rand::thread_rng` draws are oracles: every operation that draws a random
  coordinate receives it (or a stream `ℕ → Coord` of them) as an argument;
  theorems that need the draw to be in range state that as a hypothesis,
  mirroring the guarantee of `gen_range(0..width)` / `gen_range(0..height)`.
* A Rust `panic!` / failed `assert!` is embedded as `Option.none`.
-/

/-- `struct Coord { x: u16, y: u16 }` (pixel-space position). -/
structure Coord where
  x : ℕ
  y : ℕ
  deriving DecidableEq, Repr

/-- `struct Speed { x: i8, y: i8 }` (per-tick pixel step). -/
structure Speed where
  x : ℤ
  y : ℤ
  deriving DecidableEq, Repr

/-- `struct Particle { coord: Coord, speed: Speed, ttl: u8 }`. -/
structure Particle where
  coord : Coord
  speed : Speed
  ttl : ℕ
  deriving DecidableEq, Repr

/-- `struct Param` from the source.  `noise` is the external Perlin sampler
(`param.noise.get([x, y])` on scaled coordinates), kept abstract as a real
valued function of the two scaled rational coordinates. -/
structure Param where
  noise : ℚ × ℚ → ℝ
  iteration_speed : ℕ
  ttl : ℕ
  width : ℕ
  height : ℕ

/-- Wrapping `i8` negation, as release-mode `-rhs.x` behaves in
`impl Add<Speed> for Coord`: every value except `-128` is negated, while
`-(-128)` wraps back to `-128`. -/
def i8wrapNeg (v : ℤ) : ℤ :=
  if v = -128 then -128 else -v

/-- One axis of `impl Add<Speed> for Coord`: `self.x - ((-rhs.x) as u16)` when
the speed is negative, `self.x + rhs.x as u16` otherwise, with `u16` wrapping
arithmetic.  The `as u16` cast of an `i8` sign-extends, i.e. takes the value
`mod 2^16`. -/
def addAxis (c : ℕ) (s : ℤ) : ℕ :=
  if s < 0 then (c + 65536 - ((i8wrapNeg s) % 65536).toNat) % 65536
  else (c + s.toNat) % 65536

/-- `impl Add<Speed> for Coord` (also used by `AddAssign` in
`Particle::update`). -/
def Coord.addSpeed (c : Coord) (s : Speed) : Coord :=
  ⟨addAxis c.x s.x, addAxis c.y s.y⟩

/-- `Coord::scale`: map each pixel axis to `[0,1]` by dividing by the canvas
extent, then affinely to `[-1,1]` via `coord * 2 - 1`. -/
def Coord.scale (c : Coord) (width height : ℕ) : ℚ × ℚ :=
  ((c.x : ℚ) / (width : ℚ) * 2 - 1, (c.y : ℚ) / (height : ℚ) * 2 - 1)

/-- Truncation toward zero of a rational, as Rust float-to-int casts and the
float `%` operator truncate. -/
def ratTrunc (q : ℚ) : ℤ :=
  if 0 ≤ q then ⌊q⌋ else ⌈q⌉

/-- Rust's saturating float-to-`u32` cast on a rational value: truncate toward
zero, clamp negatives to `0` and values above `u32::MAX` to `u32::MAX`. -/
def ratToU32 (q : ℚ) : ℕ :=
  min (ratTrunc q).toNat (2 ^ 32 - 1)

/-- Rust's `%` on nonnegative floats (truncated remainder), on rationals. -/
def rrem (a b : ℚ) : ℚ :=
  a - b * (ratTrunc (a / b) : ℚ)

/-- Truncation toward zero of a real, for the `as i8` casts applied to
`cos`/`sin` products in `convert_radian_speed_to_cardinal_speed`. -/
noncomputable def realTrunc (x : ℝ) : ℤ :=
  if 0 ≤ x then ⌊x⌋ else ⌈x⌉

/-- Rust's saturating float-to-`i8` cast, after truncation: clamp to
`[-128, 127]`. -/
def i8sat (v : ℤ) : ℤ :=
  if v < -128 then -128 else if 127 < v then 127 else v

/-- `fn convert_radian_speed_to_cardinal_speed(speed: u8, direction: f64)`:
`((direction.cos() * speed) as i8, (direction.sin() * speed) as i8)`. -/
noncomputable def convert_radian_speed_to_cardinal_speed (speed : ℕ) (direction : ℝ) : ℤ × ℤ :=
  (i8sat (realTrunc (Real.cos direction * (speed : ℝ))),
   i8sat (realTrunc (Real.sin direction * (speed : ℝ))))

/-- `Particle::new(x, y, ttl)`: given position, zero speed. -/
def Particle.new (x y ttl : ℕ) : Particle :=
  ⟨⟨x, y⟩, ⟨0, 0⟩, ttl⟩

/-- The respawn check inside `Particle::update`: after integration, if the
coordinate escaped the canvas on either axis or the particle died of old age
(`ttl == 0`), replace the coordinate by the fresh random draw (`Coord::rand`)
and reset `ttl` to the configured maximum `param.ttl`. -/
def respawnStep (param : Param) (rnd : Coord) (c : Coord) (t : ℕ) : Coord × ℕ :=
  if param.width ≤ c.x ∨ param.height ≤ c.y ∨ t = 0 then (rnd, param.ttl) else (c, t)

/-- Wrapping `u8` decrement, modelling release-mode `self.ttl -= 1`
(`0 - 1` wraps to `255`; a debug build would panic there instead — either
way the subtraction does not saturate). -/
def dec8 (t : ℕ) : ℕ :=
  (t + 255) % 256

/-- The direction sampled in `Particle::update`:
`param.noise.get(coord.scale(width, height)) * 180.` followed by
`.to_radians()` (multiplication by `π / 180`). -/
noncomputable def Param.direction (param : Param) (c : Coord) : ℝ :=
  param.noise (c.scale param.width param.height) * 180 * (Real.pi / 180)

/-- `Particle::update`: integrate the position by the stored speed, run the
respawn check, decrement `ttl`, and recompute the speed from the noise field
at the (possibly respawned) position.  `rnd` is the oracle for the
`Coord::rand(param)` draw used when the respawn check fires. -/
noncomputable def Particle.update (p : Particle) (param : Param) (rnd : Coord) : Particle :=
  let c := p.coord.addSpeed p.speed
  let ct := respawnStep param rnd c p.ttl
  let sp := convert_radian_speed_to_cardinal_speed param.iteration_speed
    (param.direction ct.1)
  ⟨ct.1, ⟨sp.1, sp.2⟩, dec8 ct.2⟩

/-- `Particle::to_coord`: row-major frame-buffer index `y * width + x`. -/
def Particle.to_coord (p : Particle) (param : Param) : ℕ :=
  p.coord.y * param.width + p.coord.x

/-- `fn rgb(r: u32, g: u32, b: u32) -> u32`: `(r << 16) | (g << 8) | b`, the
`u32` shifts wrapping modulo `2^32`. -/
def rgb (r g b : ℕ) : ℕ :=
  ((r <<< 16) % 2 ^ 32) ||| ((g <<< 8) % 2 ^ 32) ||| b

/-- `fn unrgb(n: u32) -> (u32, u32, u32)`:
`((n >> 16) & 0xff, (n >> 8) & 0xff, n & 0xff)`. -/
def unrgb (n : ℕ) : ℕ × ℕ × ℕ :=
  ((n >>> 16) &&& 255, (n >>> 8) &&& 255, n &&& 255)

/-- `fn hue_to_rgb(hue: f32, saturation: f32, value: f32) -> u32`.  The three
`assert!`s and the fall-through `panic!` arm of the `match hue as u32` are
embedded as `none`; the six hue-sector arms pack the scaled channels exactly
as the source (`((r as u32) << 16) | ((g as u32) << 8) | (b as u32)`, which is
`rgb`). -/
def hue_to_rgb (hue saturation value : ℚ) : Option ℕ :=
  if ¬ (0 ≤ hue ∧ hue ≤ 360) then none
  else if ¬ (0 ≤ saturation ∧ saturation ≤ 1) then none
  else if ¬ (0 ≤ value ∧ value ≤ 1) then none
  else
    let c : ℚ := saturation * value
    let x : ℚ := c * (1 - |rrem (hue / 60) 2 - 1|)
    let m : ℚ := value - c
    let pack : ℚ → ℚ → ℚ → Option ℕ := fun r g b =>
      some (rgb (ratToU32 ((r + m) * 255)) (ratToU32 ((g + m) * 255)) (ratToU32 ((b + m) * 255)))
    let n : ℕ := ratToU32 hue
    if n ≤ 59 ∨ n = 360 then pack c x 0
    else if n ≤ 119 then pack x c 0
    else if n ≤ 179 then pack 0 c x
    else if n ≤ 239 then pack 0 x c
    else if n ≤ 299 then pack x 0 c
    else if n ≤ 359 then pack c 0 x
    else none

/-- `Particle::colorize`: `hue_to_rgb(ttl as f32 / param.ttl as f32 * 360., 1., 1.)`. -/
def Particle.colorize (p : Particle) (param : Param) : Option ℕ :=
  hue_to_rgb ((p.ttl : ℚ) / (param.ttl : ℚ) * 360) 1 1

/-- The value actually stored into the frame buffer for a particle.  When
`colorize` panics (`none`) the real program aborts; the default `0` here is
never reached in the scenarios the theorems below quantify over. -/
def colorWrite (p : Particle) (param : Param) : ℕ :=
  (p.colorize param).getD 0

/-- The initialization loop of `main`: `nb` iterations of
`Particle::new(0, 0, 0)` followed by one `update`, pushed in order.
`rndAt i` is the oracle for the random draw of iteration `i`. -/
noncomputable def initParticles (param : Param) (rndAt : ℕ → Coord) (nb : ℕ) : List Particle :=
  (List.range nb).map fun i => (Particle.new 0 0 0).update param (rndAt i)

/-- One simulation tick of the main loop: every particle of the population is
updated in place, in iteration order; `rndAt i` is the random draw oracle for
the `i`-th particle. -/
noncomputable def tick (param : Param) (rndAt : ℕ → Coord) (ps : List Particle) : List Particle :=
  ps.mapIdx fun i p => p.update param (rndAt i)

/-- Sequential frame-buffer writes: `buffer[idx] = color` for each `(idx,
color)` pair in order (later writes overwrite earlier ones at the same
index). -/
def writeList (ws : List (ℕ × ℕ)) (buf : List ℕ) : List ℕ :=
  ws.foldl (fun b w => b.set w.1 w.2) buf

/-- One frame of the main loop: `buffer.fill(0)` (the buffer is re-created as
all zeroes), then for each particle in iteration order, update it and write
its color at its computed index. -/
noncomputable def frame (param : Param) (rndAt : ℕ → Coord) (ps : List Particle) : List ℕ :=
  writeList ((tick param rndAt ps).map fun p => (p.to_coord param, colorWrite p param))
    (List.replicate (param.width * param.height) 0)

/-- The frame pacer of the main loop, as a function of the elapsed tick time
in milliseconds: the source executes `std::thread::sleep_ms(1000 / 30)`
unconditionally, so the sleep duration ignores the elapsed time (which the
source never measures). -/
def pacer_sleep_ms (elapsedMs : ℕ) : ℕ :=
  1000 / 30

/-- Modelled from the spec: the Pacer described in §4.6 of the specification
("if elapsed ≥ target, no sleep occurs ... otherwise the thread blocks for
`target − elapsed`"), which is absent from the source.  Used only to compare
the specified pacer with the one the code implements. -/
def spec_pacer_sleep_ms (target elapsedMs : ℕ) : ℕ :=
  if elapsedMs < target then target - elapsedMs else 0

/-- Concrete parameter bundle with configured maximum lifetime zero, canvas
4×4 (exercises the `ttl -= 1` underflow). -/
noncomputable def paramZero : Param :=
  ⟨fun _ => 0, 5, 0, 4, 4⟩

/-- Concrete parameter bundle with the `main` configuration's maximum
lifetime 1 on a 4×4 canvas. -/
noncomputable def paramOne : Param :=
  ⟨fun _ => 0, 5, 1, 4, 4⟩

/-- Concrete parameter bundle with maximum lifetime 3 on a 2×2 canvas (used
for frame-composition scenarios). -/
noncomputable def paramThree : Param :=
  ⟨fun _ => 0, 5, 3, 2, 2⟩

/-- Truncation of a rational bounded above by a natural number stays bounded
after the saturating `u32` cast. -/
theorem ratToU32_le_of_le {q : ℚ} {k : ℕ} (h : q ≤ (k : ℚ)) : ratToU32 q ≤ k := by
  have htr : ratTrunc q ≤ (k : ℤ) := by
    unfold ratTrunc
    split_ifs with h0
    · have := Int.floor_le_floor h
      simpa using this
    · have hneg : q < 0 := not_le.mp h0
      have hc : ⌈q⌉ ≤ ⌈(0 : ℚ)⌉ := Int.ceil_le_ceil hneg.le
      simp only [Int.ceil_zero] at hc
      exact hc.trans (by positivity)
  unfold ratToU32
  have : (ratTrunc q).toNat ≤ k := by omega
  omega

/-- Packing bounded channels with `rgb` is plain positional arithmetic. -/
theorem rgb_eq_of_le {r g b : ℕ} (hr : r ≤ 255) (hg : g ≤ 255) (hb : b ≤ 255) :
    rgb r g b = r * 65536 + g * 256 + b := by
  have h1 : r <<< 16 % 2 ^ 32 = r * 65536 := by
    rw [Nat.shiftLeft_eq, Nat.mod_eq_of_lt (by norm_num; omega)]
  have h2 : g <<< 8 % 2 ^ 32 = g * 256 := by
    rw [Nat.shiftLeft_eq, Nat.mod_eq_of_lt (by norm_num; omega)]
  have h3 : g * 256 ||| b = g * 256 + b := by
    have h := Nat.mul_add_lt_is_or (i := 8) (show b < 2 ^ 8 by omega) g
    norm_num at h
    rw [Nat.mul_comm 256 g] at h
    exact h.symm
  have h4 : r * 65536 ||| (g * 256 + b) = r * 65536 + (g * 256 + b) := by
    have h := Nat.mul_add_lt_is_or (i := 16) (show g * 256 + b < 2 ^ 16 by omega) r
    norm_num at h
    rw [Nat.mul_comm 65536 r] at h
    exact h.symm
  unfold rgb
  rw [h1, h2, Nat.or_assoc, h3, h4]
  omega

/-- C10: round-trip of the color packing: for 8-bit channels,
`unrgb (rgb r g b) = (r, g, b)`, and for any `u32` value `n`, repacking the
three extracted channels of `unrgb n` reproduces the low 24 bits of `n`. -/
theorem C10_rgb_roundtrip :
    (∀ r g b : ℕ, r ≤ 255 → g ≤ 255 → b ≤ 255 → unrgb (rgb r g b) = (r, g, b)) ∧
    (∀ n : ℕ, n < 2 ^ 32 →
      rgb (unrgb n).1 (unrgb n).2.1 (unrgb n).2.2 = n % 2 ^ 24) := by
  have hmask : ∀ m : ℕ, m &&& 255 = m % 2 ^ 8 := by
    intro m
    have := Nat.and_pow_two_sub_one_eq_mod m 8
    norm_num at this
    exact this
  have hun : ∀ n : ℕ, unrgb n = (n / 65536 % 256, n / 256 % 256, n % 256) := by
    intro n
    unfold unrgb
    rw [hmask, hmask, hmask, Nat.shiftRight_eq_div_pow, Nat.shiftRight_eq_div_pow]
    norm_num
  constructor
  · intro r g b hr hg hb
    rw [rgb_eq_of_le hr hg hb, hun]
    refine Prod.ext ?_ (Prod.ext ?_ ?_) <;> simp <;> omega
  · intro n hn
    rw [hun]
    have h1 : n / 65536 % 256 ≤ 255 := by omega
    have h2 : n / 256 % 256 ≤ 255 := by omega
    have h3 : n % 256 ≤ 255 := by omega
    rw [rgb_eq_of_le h1 h2 h3]
    omega

/-- Witness for C10 at concrete channels and a concrete packed value. -/
theorem C10_rgb_roundtrip_witness :
    unrgb (rgb 17 34 51) = (17, 34, 51) ∧
    rgb (unrgb 305419896).1 (unrgb 305419896).2.1 (unrgb 305419896).2.2 = 305419896 % 2 ^ 24 :=
  ⟨C10_rgb_roundtrip.1 17 34 51 (by decide) (by decide) (by decide),
   C10_rgb_roundtrip.2 305419896 (by decide)⟩

/-- C9 (amended): the pacer sleeps a fixed `1000 / 30 = 33` milliseconds on
every frame, whatever the elapsed tick time was; the source never measures
elapsed time, never skips the sleep, and never reports an overrun. -/
theorem C9_fixed_sleep (elapsedMs : ℕ) :
    pacer_sleep_ms elapsedMs = 33 ∧ pacer_sleep_ms elapsedMs ≠ 0 := by
  unfold pacer_sleep_ms
  omega

/-- Counterexample for C9 as stated: with a target of `1000 / 30` ms and an
elapsed tick time of 100 ms (an overrun), the claim mandates no sleep at all,
but the code sleeps its fixed 33 ms anyway. -/
theorem C9_counterexample :
    pacer_sleep_ms 100 = 33 ∧ spec_pacer_sleep_ms (1000 / 30) 100 = 0 ∧
    pacer_sleep_ms 100 ≠ spec_pacer_sleep_ms (1000 / 30) 100 := by
  decide

/-- Counterexample for C3 as stated: with configured maximum lifetime 0, a
particle whose respawn check fires (here because its lifetime is 0) has its
lifetime reset to 0 and the following `ttl -= 1` underflows, wrapping the
`u8` counter to 255 — the decrement is not saturating for every configured
maximum lifetime. -/
theorem C3_counterexample :
    ((Particle.mk ⟨0, 0⟩ ⟨0, 0⟩ 0).update paramZero ⟨1, 1⟩).ttl = 255 ∧ paramZero.ttl = 0 := by
  constructor
  · decide
  · decide

/-- Counterexample for C7 as stated: with the `main` configuration
(`ttl = 1`), the single particle produced by the initialization loop enters
the population with lifetime 0, not the full configured maximum 1 — the
respawn inside the initializing update sets `ttl` to the maximum but the same
update immediately decrements it. -/
theorem C7_counterexample :
    (initParticles paramOne (fun _ => ⟨2, 3⟩) 1).map Particle.ttl = [0] ∧
    paramOne.ttl = 1 := by
  constructor
  · decide
  · decide

/-- Projection: the position after an update is the respawn-check result. -/
theorem update_coord (p : Particle) (param : Param) (rnd : Coord) :
    (p.update param rnd).coord = (respawnStep param rnd (p.coord.addSpeed p.speed) p.ttl).1 :=
  rfl

/-- Projection: the lifetime after an update is the wrapped decrement of the
respawn-check result. -/
theorem update_ttl (p : Particle) (param : Param) (rnd : Coord) :
    (p.update param rnd).ttl = dec8 (respawnStep param rnd (p.coord.addSpeed p.speed) p.ttl).2 :=
  rfl

/-- One scaled axis of an in-bounds pixel coordinate lies in `[-1, 1]`. -/
theorem scale_axis_bound {x w : ℕ} (h : x < w) :
    -1 ≤ (x : ℚ) / (w : ℚ) * 2 - 1 ∧ (x : ℚ) / (w : ℚ) * 2 - 1 ≤ 1 := by
  have hw : (0 : ℚ) < (w : ℚ) := by exact_mod_cast Nat.pos_of_ne_zero (by omega)
  have h0 : (0 : ℚ) ≤ (x : ℚ) / (w : ℚ) := div_nonneg (by positivity) hw.le
  have h1 : (x : ℚ) / (w : ℚ) ≤ 1 := by
    rw [div_le_one hw]
    exact_mod_cast h.le
  constructor <;> linarith

/-- The respawn check always leaves the position inside the canvas, provided
the random draw is in range (as `gen_range` guarantees). -/
theorem respawn_in_domain (param : Param) (rnd c : Coord) (t : ℕ)
    (hx : rnd.x < param.width) (hy : rnd.y < param.height) :
    (respawnStep param rnd c t).1.x < param.width ∧
    (respawnStep param rnd c t).1.y < param.height := by
  unfold respawnStep
  split_ifs with h
  · exact ⟨hx, hy⟩
  · push_neg at h
    exact ⟨h.1, h.2.1⟩

/-- C1: at the end of every `Particle::update` the position lies inside the
canvas (`x < width`, `y < height`, equivalently the scaled position lies in
`[-1,1]²`), and `to_coord` therefore yields an index strictly below
`width·height`, so the subsequent frame-buffer write is in bounds — for every
particle state, hence for every reachable state after at least one update. -/
theorem C1_update_in_bounds (param : Param) (rnd : Coord) (p : Particle)
    (hx : rnd.x < param.width) (hy : rnd.y < param.height) :
    (p.update param rnd).coord.x < param.width ∧
    (p.update param rnd).coord.y < param.height ∧
    (-1 ≤ ((p.update param rnd).coord.scale param.width param.height).1 ∧
      ((p.update param rnd).coord.scale param.width param.height).1 ≤ 1) ∧
    (-1 ≤ ((p.update param rnd).coord.scale param.width param.height).2 ∧
      ((p.update param rnd).coord.scale param.width param.height).2 ≤ 1) ∧
    (p.update param rnd).to_coord param < param.width * param.height := by
  obtain ⟨hcx, hcy⟩ := respawn_in_domain param rnd (p.coord.addSpeed p.speed) p.ttl hx hy
  have ex : (p.update param rnd).coord.x < param.width := by
    rw [update_coord]
    exact hcx
  have ey : (p.update param rnd).coord.y < param.height := by
    rw [update_coord]
    exact hcy
  refine ⟨ex, ey, scale_axis_bound ex, scale_axis_bound ey, ?_⟩
  unfold Particle.to_coord
  have hmul : ((p.update param rnd).coord.y + 1) * param.width ≤
      param.height * param.width := Nat.mul_le_mul_right _ ey
  have hexp : ((p.update param rnd).coord.y + 1) * param.width =
      (p.update param rnd).coord.y * param.width + param.width := by ring
  have hcomm : param.width * param.height = param.height * param.width := Nat.mul_comm _ _
  omega

/-- Witness for C1: a concrete particle update on the 4×4 canvas. -/
theorem C1_update_in_bounds_witness :
    (Coord.mk 2 3).x < paramOne.width ∧ (Coord.mk 2 3).y < paramOne.height ∧
    ((Particle.mk ⟨0, 0⟩ ⟨0, 0⟩ 5).update paramOne ⟨2, 3⟩).to_coord paramOne <
      paramOne.width * paramOne.height :=
  ⟨by decide, by decide,
   (C1_update_in_bounds paramOne ⟨2, 3⟩ (Particle.mk ⟨0, 0⟩ ⟨0, 0⟩ 5)
     (by decide) (by decide)).2.2.2.2⟩

/-- C2: whenever the integrated position has left the canvas on either axis
or the lifetime is zero at the respawn check, the particle is respawned in
place: the respawn check replaces the position by the fresh in-domain random
draw and resets the lifetime to the configured maximum `param.ttl` (the same
record is mutated; nothing is destroyed). -/
theorem C2_respawn (param : Param) (rnd : Coord) (p : Particle)
    (hcond : param.width ≤ (p.coord.addSpeed p.speed).x ∨
      param.height ≤ (p.coord.addSpeed p.speed).y ∨ p.ttl = 0)
    (hx : rnd.x < param.width) (hy : rnd.y < param.height) :
    respawnStep param rnd (p.coord.addSpeed p.speed) p.ttl = (rnd, param.ttl) ∧
    (p.update param rnd).coord = rnd ∧
    (p.update param rnd).coord.x < param.width ∧
    (p.update param rnd).coord.y < param.height := by
  have hres : respawnStep param rnd (p.coord.addSpeed p.speed) p.ttl = (rnd, param.ttl) := by
    unfold respawnStep
    rw [if_pos hcond]
  have hcoord : (p.update param rnd).coord = rnd := by
    rw [update_coord, hres]
  exact ⟨hres, hcoord, by rw [hcoord]; exact hx, by rw [hcoord]; exact hy⟩

/-- Witness for C2: a dead particle (lifetime 0) is respawned at the drawn
coordinate. -/
theorem C2_respawn_witness :
    ((Particle.mk ⟨0, 0⟩ ⟨0, 0⟩ 0).update paramOne ⟨1, 2⟩).coord = ⟨1, 2⟩ :=
  (C2_respawn paramOne ⟨1, 2⟩ (Particle.mk ⟨0, 0⟩ ⟨0, 0⟩ 0)
    (by decide) (by decide) (by decide)).2.1

/-- C3 (amended): the lifetime is decremented by one right after the respawn
check with plain (wrapping, not saturating) `u8` subtraction; whenever the
configured maximum lifetime is at least 1, the value reaching the decrement
is at least 1, so the decrement never underflows, for every particle state. -/
theorem C3_decrement_no_underflow (param : Param) (rnd : Coord) (p : Particle)
    (h1 : 1 ≤ param.ttl) (h2 : param.ttl ≤ 255) (h3 : p.ttl ≤ 255) :
    1 ≤ (respawnStep param rnd (p.coord.addSpeed p.speed) p.ttl).2 ∧
    (p.update param rnd).ttl =
      (respawnStep param rnd (p.coord.addSpeed p.speed) p.ttl).2 - 1 ∧
    (p.update param rnd).ttl <
      (respawnStep param rnd (p.coord.addSpeed p.speed) p.ttl).2 := by
  have hval : 1 ≤ (respawnStep param rnd (p.coord.addSpeed p.speed) p.ttl).2 ∧
      (respawnStep param rnd (p.coord.addSpeed p.speed) p.ttl).2 ≤ 255 := by
    unfold respawnStep
    split_ifs with h
    · exact ⟨h1, h2⟩
    · push_neg at h
      exact ⟨by omega, h3⟩
  rw [update_ttl]
  unfold dec8
  omega

/-- Witness for C3 (amended): a live in-bounds particle under the `main`
configuration. -/
theorem C3_decrement_no_underflow_witness :
    1 ≤ (respawnStep paramOne ⟨2, 3⟩
      ((Particle.mk ⟨1, 1⟩ ⟨0, 0⟩ 7).coord.addSpeed (Particle.mk ⟨1, 1⟩ ⟨0, 0⟩ 7).speed)
      (Particle.mk ⟨1, 1⟩ ⟨0, 0⟩ 7).ttl).2 ∧
    ((Particle.mk ⟨1, 1⟩ ⟨0, 0⟩ 7).update paramOne ⟨2, 3⟩).ttl =
      (respawnStep paramOne ⟨2, 3⟩
        ((Particle.mk ⟨1, 1⟩ ⟨0, 0⟩ 7).coord.addSpeed (Particle.mk ⟨1, 1⟩ ⟨0, 0⟩ 7).speed)
        (Particle.mk ⟨1, 1⟩ ⟨0, 0⟩ 7).ttl).2 - 1 ∧
    ((Particle.mk ⟨1, 1⟩ ⟨0, 0⟩ 7).update paramOne ⟨2, 3⟩).ttl <
      (respawnStep paramOne ⟨2, 3⟩
        ((Particle.mk ⟨1, 1⟩ ⟨0, 0⟩ 7).coord.addSpeed (Particle.mk ⟨1, 1⟩ ⟨0, 0⟩ 7).speed)
        (Particle.mk ⟨1, 1⟩ ⟨0, 0⟩ 7).ttl).2 :=
  C3_decrement_no_underflow paramOne ⟨2, 3⟩ (Particle.mk ⟨1, 1⟩ ⟨0, 0⟩ 7)
    (by decide) (by decide) (by decide)

/-- C7 (amended): the initialization loop produces exactly `nb` particles,
each at an in-domain random position with lifetime equal to the configured
maximum minus one (the respawn inside the initializing update sets the
maximum, which the same update then decrements); afterwards every tick maps
the population in place, so its size never changes. -/
theorem C7_population (param : Param) (rndAt : ℕ → Coord) (nb : ℕ)
    (h1 : 1 ≤ param.ttl) (h2 : param.ttl ≤ 255)
    (hr : ∀ i, (rndAt i).x < param.width ∧ (rndAt i).y < param.height) :
    (initParticles param rndAt nb).length = nb ∧
    (∀ q ∈ initParticles param rndAt nb,
      q.coord.x < param.width ∧ q.coord.y < param.height ∧ q.ttl = param.ttl - 1) ∧
    (∀ (rndAt2 : ℕ → Coord) (ps : List Particle),
      (tick param rndAt2 ps).length = ps.length) := by
  refine ⟨?_, ?_, ?_⟩
  · unfold initParticles
    rw [List.length_map, List.length_range]
  · intro q hq
    unfold initParticles at hq
    rw [List.mem_map] at hq
    obtain ⟨i, _, rfl⟩ := hq
    have hzero : (Particle.new 0 0 0).ttl = 0 := rfl
    have hco : ((Particle.new 0 0 0).update param (rndAt i)).coord = rndAt i := by
      rw [update_coord]
      unfold respawnStep
      rw [if_pos (Or.inr (Or.inr hzero))]
    have httl : ((Particle.new 0 0 0).update param (rndAt i)).ttl = dec8 param.ttl := by
      rw [update_ttl]
      unfold respawnStep
      rw [if_pos (Or.inr (Or.inr hzero))]
    refine ⟨by rw [hco]; exact (hr i).1, by rw [hco]; exact (hr i).2, ?_⟩
    rw [httl]
    unfold dec8
    omega
  · intro rndAt2 ps
    unfold tick
    rw [List.length_mapIdx]

/-- Witness for C7 (amended): five particles initialized on the 4×4 canvas. -/
theorem C7_population_witness :
    (initParticles paramOne (fun _ => ⟨2, 3⟩) 5).length = 5 ∧
    ∀ q ∈ initParticles paramOne (fun _ => ⟨2, 3⟩) 5,
      q.coord.x < paramOne.width ∧ q.coord.y < paramOne.height ∧
        q.ttl = paramOne.ttl - 1 :=
  ⟨(C7_population paramOne (fun _ => ⟨2, 3⟩) 5 (by decide) (by decide)
      (fun _ => ⟨(by decide : (Coord.mk 2 3).x < paramOne.width),
                 (by decide : (Coord.mk 2 3).y < paramOne.height)⟩)).1,
   (C7_population paramOne (fun _ => ⟨2, 3⟩) 5 (by decide) (by decide)
      (fun _ => ⟨(by decide : (Coord.mk 2 3).x < paramOne.width),
                 (by decide : (Coord.mk 2 3).y < paramOne.height)⟩)).2.1⟩

/-- C5: `hue_to_rgb` fails fast exactly when an input is out of range — hue
outside `[0, 360]`, saturation outside `[0, 1]`, or value outside `[0, 1]`;
for every in-range input it returns normally, and in particular the
fall-through hue-sector arm is unreachable for in-range hue. -/
theorem C5_assert_iff (hq s v : ℚ) :
    (hue_to_rgb hq s v).isSome = true ↔
      (0 ≤ hq ∧ hq ≤ 360) ∧ (0 ≤ s ∧ s ≤ 1) ∧ (0 ≤ v ∧ v ≤ 1) := by
  simp only [hue_to_rgb]
  split_ifs with g1 g2 g3 s1 s2 s3 s4 s5 s6 <;>
    simp only [Option.isSome_none, Option.isSome_some, Bool.false_eq_true,
      false_iff, true_iff]
  all_goals try tauto
  all_goals intro hrhs
  all_goals have hle : ratToU32 hq ≤ 360 := ratToU32_le_of_le (by push_cast; exact hrhs.1.2)
  all_goals push_neg at s1
  all_goals omega

/-- C4: for every hue in `[0, 360]` with saturation and value 1, `hue_to_rgb`
returns without failing a packed color whose three 8-bit channels each lie in
`[0, 255]`, and hue 0 and hue 360 produce the identical packed color
(wraparound continuity). -/
theorem C4_hue_channels :
    (∀ hq : ℚ, 0 ≤ hq → hq ≤ 360 →
      ∃ r g b : ℕ, r ≤ 255 ∧ g ≤ 255 ∧ b ≤ 255 ∧
        hue_to_rgb hq 1 1 = some (rgb r g b)) ∧
    hue_to_rgb 0 1 1 = hue_to_rgb 360 1 1 := by
  constructor
  · intro hq h0 h1
    have hxle : 1 * 1 * (1 - |rrem (hq / 60) 2 - 1|) ≤ 1 := by
      have := abs_nonneg (rrem (hq / 60) 2 - 1)
      nlinarith
    simp only [hue_to_rgb]
    rw [if_neg (not_not.mpr ⟨h0, h1⟩),
      if_neg (not_not.mpr ⟨by norm_num, by norm_num⟩),
      if_neg (not_not.mpr ⟨by norm_num, by norm_num⟩)]
    split_ifs with s1 s2 s3 s4 s5 s6 <;>
      first
      | exact ⟨_, _, _, ratToU32_le_of_le (by push_cast; nlinarith [hxle]),
          ratToU32_le_of_le (by push_cast; nlinarith [hxle]),
          ratToU32_le_of_le (by push_cast; nlinarith [hxle]), rfl⟩
      | (exfalso
         have hle : ratToU32 hq ≤ 360 := ratToU32_le_of_le (by push_cast; exact h1)
         push_neg at s1
         omega)
  · have e1 : hue_to_rgb 0 1 1 = some 16711680 := by
      norm_num [hue_to_rgb, rrem, ratTrunc, ratToU32, rgb]
      try decide
    have e2 : hue_to_rgb 360 1 1 = some 16711680 := by
      norm_num [hue_to_rgb, rrem, ratTrunc, ratToU32, rgb]
      try decide
    rw [e1, e2]

/-- Witness for C4 at hue 120. -/
theorem C4_hue_channels_witness :
    (0 : ℚ) ≤ 120 ∧ (120 : ℚ) ≤ 360 ∧
    ∃ r g b : ℕ, r ≤ 255 ∧ g ≤ 255 ∧ b ≤ 255 ∧
      hue_to_rgb 120 1 1 = some (rgb r g b) :=
  ⟨by decide, by decide, C4_hue_channels.1 120 (by decide) (by decide)⟩

/-- Truncation toward zero never grows the absolute value beyond a natural
bound. -/
theorem realTrunc_abs_le {x : ℝ} {s : ℕ} (h : |x| ≤ (s : ℝ)) :
    |realTrunc x| ≤ (s : ℤ) := by
  obtain ⟨hl, hr⟩ := abs_le.mp h
  unfold realTrunc
  split_ifs with h0
  · rw [abs_of_nonneg (Int.floor_nonneg.mpr h0)]
    have hf : ⌊x⌋ ≤ ⌊(s : ℝ)⌋ := Int.floor_le_floor hr
    simpa using hf
  · push_neg at h0
    have hc0 : ⌈x⌉ ≤ 0 := by
      rw [Int.ceil_le]
      push_cast
      exact h0.le
    have hcl : -(s : ℤ) ≤ ⌈x⌉ := by
      have h2 : ((-(s : ℤ) : ℤ) : ℝ) ≤ (⌈x⌉ : ℝ) :=
        le_trans (by push_cast; linarith) (Int.le_ceil x)
      exact_mod_cast h2
    rw [abs_of_nonpos hc0]
    omega

/-- The saturating `i8` cast never grows the absolute value beyond a natural
bound. -/
theorem i8sat_abs_le {v : ℤ} {s : ℕ} (h : |v| ≤ (s : ℤ)) : |i8sat v| ≤ (s : ℤ) := by
  obtain ⟨hl, hr⟩ := abs_le.mp h
  unfold i8sat
  split_ifs with a b <;> rw [abs_le] <;> omega

/-- A cosine (or sine) scaled by a natural speed stays within that speed. -/
theorem trig_mul_abs_le {t : ℝ} (ht : |t| ≤ 1) (s : ℕ) : |t * (s : ℝ)| ≤ (s : ℝ) := by
  rw [abs_mul, abs_of_nonneg (show (0 : ℝ) ≤ (s : ℝ) by positivity)]
  nlinarith [abs_nonneg t]

/-- C6: for every direction and iteration speed, the step vector is computed
as `(cos(direction)·speed, sin(direction)·speed)` truncated to integers (with
the saturating `i8` cast), and each component has absolute value at most the
speed — velocity magnitude is bounded by the iteration-speed constant. -/
theorem C6_step_bounded (speed : ℕ) (direction : ℝ) :
    convert_radian_speed_to_cardinal_speed speed direction =
      (i8sat (realTrunc (Real.cos direction * (speed : ℝ))),
       i8sat (realTrunc (Real.sin direction * (speed : ℝ)))) ∧
    |(convert_radian_speed_to_cardinal_speed speed direction).1| ≤ (speed : ℤ) ∧
    |(convert_radian_speed_to_cardinal_speed speed direction).2| ≤ (speed : ℤ) :=
  ⟨rfl,
   i8sat_abs_le (realTrunc_abs_le (trig_mul_abs_le (Real.abs_cos_le_one direction) speed)),
   i8sat_abs_le (realTrunc_abs_le (trig_mul_abs_le (Real.abs_sin_le_one direction) speed))⟩

/-- Sequential buffer writes are last-write-wins: the value at a valid index
after a write sequence is the value of the last write to that index, or the
original buffer content when no write touched it. -/
theorem writeList_getElem? (ws : List (ℕ × ℕ)) (buf : List ℕ) (i : ℕ) (h : i < buf.length) :
    (writeList ws buf)[i]? =
      some (((ws.reverse.find? fun w => w.1 == i).map Prod.snd).getD (buf.getD i 0)) := by
  induction ws generalizing buf with
  | nil =>
    simp only [writeList, List.foldl_nil, List.reverse_nil, List.find?_nil,
      Option.map_none', Option.getD_none]
    rw [List.getD_eq_getElem?_getD, List.getElem?_eq_getElem h]
    simp
  | cons w ws ih =>
    have hlen : i < (buf.set w.1 w.2).length := by simpa using h
    have hw : writeList (w :: ws) buf = writeList ws (buf.set w.1 w.2) := rfl
    rw [hw, ih _ hlen, List.reverse_cons, List.find?_append]
    cases hfind : ws.reverse.find? (fun w => w.1 == i) with
    | some v => simp [hfind]
    | none =>
      simp only [hfind, Option.none_or]
      by_cases hwi : w.1 = i
      · rw [List.find?_cons_of_pos _ (by simp [hwi])]
        simp only [Option.map_some', Option.getD_some]
        rw [List.getD_eq_getElem?_getD]
        rw [hwi, List.getElem?_set_self h]
        simp
      · rw [List.find?_cons_of_neg _ (by simp [hwi]), List.find?_nil]
        simp only [Option.map_none', Option.getD_none]
        rw [List.getD_eq_getElem?_getD, List.getD_eq_getElem?_getD,
          List.getElem?_set_ne hwi]

/-- C8: each frame first clears the whole buffer to zero, then performs
exactly one write per particle (at that particle's computed index, in
iteration order); the value finally held at any valid index is the color of
the last particle written there — later writes silently overwrite earlier
ones, with no blending — and any index no particle wrote still holds zero
(the `find?` over the reversed write list returns the last write if any,
and the `getD` default 0 is the cleared buffer content otherwise). -/
theorem C8_frame_composition (param : Param) (rndAt : ℕ → Coord) (ps : List Particle)
    (i : ℕ) (h : i < param.width * param.height) :
    ((tick param rndAt ps).map fun p => (p.to_coord param, colorWrite p param)).length =
      ps.length ∧
    (frame param rndAt ps)[i]? =
      some (((((tick param rndAt ps).map fun p =>
        (p.to_coord param, colorWrite p param)).reverse.find? fun w =>
          w.1 == i).map Prod.snd).getD 0) := by
  constructor
  · rw [List.length_map]
    unfold tick
    exact List.length_mapIdx
  · unfold frame
    rw [writeList_getElem? _ _ _ (by simpa using h)]
    have hz : (List.replicate (param.width * param.height) (0 : ℕ)).getD i 0 = 0 := by
      rw [List.getD_eq_getElem?_getD, List.getElem?_replicate_of_lt h]
      simp
    rw [hz]

/-- Witness for C8: two particles sharing the same pixel on a 2×2 canvas. -/
theorem C8_frame_composition_witness :
    ((tick paramThree (fun _ => ⟨0, 0⟩)
        [Particle.mk ⟨1, 0⟩ ⟨0, 0⟩ 2, Particle.mk ⟨1, 0⟩ ⟨0, 0⟩ 3]).map fun p =>
          (p.to_coord paramThree, colorWrite p paramThree)).length =
      [Particle.mk ⟨1, 0⟩ ⟨0, 0⟩ 2, Particle.mk ⟨1, 0⟩ ⟨0, 0⟩ 3].length ∧
    (frame paramThree (fun _ => ⟨0, 0⟩)
        [Particle.mk ⟨1, 0⟩ ⟨0, 0⟩ 2, Particle.mk ⟨1, 0⟩ ⟨0, 0⟩ 3])[1]? =
      some (((((tick paramThree (fun _ => ⟨0, 0⟩)
        [Particle.mk ⟨1, 0⟩ ⟨0, 0⟩ 2, Particle.mk ⟨1, 0⟩ ⟨0, 0⟩ 3]).map fun p =>
          (p.to_coord paramThree, colorWrite p paramThree)).reverse.find? fun w =>
            w.1 == 1).map Prod.snd).getD 0) :=
  C8_frame_composition paramThree (fun _ => ⟨0, 0⟩)
    [Particle.mk ⟨1, 0⟩ ⟨0, 0⟩ 2, Particle.mk ⟨1, 0⟩ ⟨0, 0⟩ 3] 1 (by decide)
